import Mathlib

/-!
Verification development for the graph-memory core of the repository
(`mem0/memory/main_graph.py`) and the metadata-merge utility
(`embedchain/memory/utils.py`).

The graph store (Neo4j) is an external collaborator consumed through a
query-and-params interface, so the graph operations are embedded over an
abstract `GraphStore` interface with one operation per Cypher call site,
together with a concrete instantiation `neo4jStore` on `GraphState` giving
the semantics of those Cypher statements for a store whose nodes are
uniquely identified by name (the data-model invariant this layer relies
on; node type labels, embeddings and timestamps are not consumed by any
of the verified operations and are not tracked).
-/

/-- Normalization applied throughout `main_graph.py`:
`s.lower().replace(" ", "_")`.  Modelled character-wise (the pattern is a
single character, so Python's `replace` acts on each character). -/
def normalizeName (s : String) : String :=
  String.mk (s.data.map (fun c => if Char.toLower c = ' ' then '_' else Char.toLower c))

/-- A directed, labelled edge, as created by the Cypher statements in
`main_graph.py` (`(n1)-[r:label]->(n2)`). -/
structure Edge where
  src : String
  label : String
  dst : String
deriving DecidableEq, Repr

/-- State of the graph store: node names (unique by construction, per the
data-model invariant) and a multiset of directed labelled edges. -/
structure GraphState where
  nodes : List String
  edges : List Edge
deriving DecidableEq, Repr

/-- Bool test used by the delete/match Cypher statements of
`_update_relationship`: does edge `e` run from node `s` to node `t`
(any label)? -/
def isEdgeBetween (s t : String) (e : Edge) : Bool :=
  e.src == s && e.dst == t

/-- `MERGE (n {name: $n})`: insert a node if no node with that name exists. -/
def insertNode (g : GraphState) (n : String) : GraphState :=
  if n ∈ g.nodes then g else { g with nodes := g.nodes ++ [n] }

/-- Semantics of `MERGE (n1 {name: $source}) MERGE (n2 {name: $target})`
(the check-and-create statement of `_update_relationship`). -/
def runMergeNodesState (g : GraphState) (s t : String) : GraphState :=
  insertNode (insertNode g s) t

/-- Semantics of
`MATCH (n1 {name: $source})-[r]->(n2 {name: $target}) DELETE r`:
delete every directed edge from `s` to `t`, regardless of label. -/
def runDeleteEdgesState (g : GraphState) (s t : String) : GraphState :=
  { g with edges := g.edges.filter (fun e => !(isEdgeBetween s t e)) }

/-- Semantics of
`MATCH (n1 {name: $source}), (n2 {name: $target}) CREATE (n1)-[r:rel]->(n2) RETURN n1, r, n2`:
if both nodes exist, create the edge and return one row per created edge;
otherwise the MATCH finds nothing and no row is returned. -/
def runCreateEdgeState (g : GraphState) (s t rel : String) : GraphState × List Edge :=
  if s ∈ g.nodes ∧ t ∈ g.nodes then
    ({ g with edges := g.edges ++ [⟨s, rel, t⟩] }, [⟨s, rel, t⟩])
  else (g, [])

/-- Semantics of the add-path Cypher of `MemoryGraph.add`:
`MERGE` both nodes (create-if-absent; embedding refresh not tracked),
`MERGE (n)-[rel:relation]->(m)` (create the edge only if absent) and
return the matched row. -/
def runAddTripleState (g : GraphState) (src _stype rel dst _dtype : String) :
    GraphState × List Edge :=
  let g1 := insertNode (insertNode g src) dst
  let e : Edge := ⟨src, rel, dst⟩
  let g2 := if e ∈ g1.edges then g1 else { g1 with edges := g1.edges ++ [e] }
  (g2, [e])

/-- The graph-store collaborator, one operation per Cypher call site of
`main_graph.py`.  `S` is the collaborator's private state; rows are
reported as the edges a statement matched or created (only emptiness is
ever inspected by the caller). -/
structure GraphStore (S : Type) where
  runMergeNodes : S → String → String → S
  runDeleteEdges : S → String → String → S
  runCreateEdge : S → String → String → String → S × List Edge
  runAddTriple : S → String → String → String → String → String → S × List Edge

/-- The concrete Neo4j-style store on `GraphState`. -/
def neo4jStore : GraphStore GraphState :=
  { runMergeNodes := runMergeNodesState
    runDeleteEdges := runDeleteEdgesState
    runCreateEdge := runCreateEdgeState
    runAddTriple := runAddTripleState }

namespace MemoryGraph

/-- Default similarity threshold set in `MemoryGraph.__init__`
(`self.threshold = 0.7`). -/
noncomputable def threshold : ℝ := 0.7

/-- Embedding of `MemoryGraph._update_relationship(source, target, relationship)`:
normalize the relationship label, `MERGE` both nodes, delete every existing
directed edge from source to target, create the new edge, and raise
`Exception(f"Failed to update or create relationship between {source} and {target}")`
if the creation query returns no result. -/
def updateRelationship {S : Type} (st : GraphStore S) (s0 : S)
    (source target relationship : String) : Except String S :=
  let rel := normalizeName relationship
  let s1 := st.runMergeNodes s0 source target
  let s2 := st.runDeleteEdges s1 source target
  let pr := st.runCreateEdge s2 source target rel
  if pr.2.isEmpty then
    .error ("Failed to update or create relationship between " ++ source ++ " and " ++ target)
  else
    .ok pr.1

end MemoryGraph

/-- Arguments of a reconciliation tool call.  `add_graph_memory` carries all
five fields; `update_graph_memory` consumes only `source`, `destination`
and `relationship` (the Python code reads exactly those keys). -/
structure ToolArgs where
  source : String
  source_type : String
  relationship : String
  destination : String
  destination_type : String
deriving DecidableEq, Repr

/-- A tool call returned by the reconciliation LLM: a name and arguments. -/
structure ToolCall where
  name : String
  args : ToolArgs
deriving DecidableEq, Repr

/-- Outcome of `MemoryGraph.add`: the final store state, the Python return
value (`add` has no `return` statement, hence always `none`), and the
count reported by `logger.info(f"Added {len(to_be_added)} new memories")`. -/
structure AddOutcome (S : Type) where
  state : S
  returned : Option Nat
  logged : Nat
deriving DecidableEq, Repr

namespace MemoryGraph

/-- The dispatch loop of `MemoryGraph.add` over the tool calls returned by
the reconciliation LLM: `add_graph_memory` queues its arguments,
`update_graph_memory` immediately runs `_update_relationship`, `noop`
`continue`s, and any other name falls through every `elif` branch
unhandled.  Returns the state after all updates and the queued
`to_be_added` list in order. -/
def reconcileLoop {S : Type} (st : GraphStore S) (s : S) :
    List ToolCall → Except String (S × List ToolArgs)
  | [] => .ok (s, [])
  | tc :: rest =>
    if tc.name = "add_graph_memory" then
      match reconcileLoop st s rest with
      | .ok (s1, q) => .ok (s1, tc.args :: q)
      | .error e => .error e
    else if tc.name = "update_graph_memory" then
      match updateRelationship st s tc.args.source tc.args.destination tc.args.relationship with
      | .ok s1 => reconcileLoop st s1 rest
      | .error e => .error e
    else
      reconcileLoop st s rest

/-- The second loop of `MemoryGraph.add`: for each queued triple, normalize
all five identifier strings and run the add-path Cypher (the returned rows
are discarded: `_ = self.graph.query(cypher, params=params)`). -/
def insertLoop {S : Type} (st : GraphStore S) (s : S) : List ToolArgs → S
  | [] => s
  | a :: rest =>
    let s1 := (st.runAddTriple s (normalizeName a.source) (normalizeName a.source_type)
      (normalizeName a.relationship) (normalizeName a.destination)
      (normalizeName a.destination_type)).1
    insertLoop st s1 rest

/-- Embedding of `MemoryGraph.add` from the reconciliation tool calls on:
dispatch every tool call, then insert the queued triples.  The entity
extraction and LLM calls that produce `toolCalls` are external
collaborators.  The function body ends with `logger.info` and has no
`return` statement, so the Python return value is `None`. -/
def add {S : Type} (st : GraphStore S) (s : S) (toolCalls : List ToolCall) :
    Except String (AddOutcome S) :=
  match reconcileLoop st s toolCalls with
  | .error e => .error e
  | .ok (s1, queue) =>
    .ok { state := insertLoop st s1 queue, returned := none, logged := queue.length }

end MemoryGraph

/-- A tool call returned by the search-path entity extraction
(`_search`, lines 133-136): calls named `"search"` carry `nodes` and
`relations` lists which are concatenated across calls. -/
structure SearchToolCall where
  name : String
  nodes : List String
  relations : List String
deriving DecidableEq, Repr

namespace MemoryGraph

/-- The list pipeline of `_search` applied to each of the two collected
lists: `node_list = list(set(node_list))` followed by
`node_list = [node.lower().replace(" ", "_") for node in node_list]` —
deduplicate the raw strings, then normalize.  Python's `set` has no
specified order; `List.dedup` is one order-representative of it
(every property proved below is order-independent). -/
def dedupThenNormalize (l : List String) : List String :=
  l.dedup.map normalizeName

/-- The node and relation lists `_search` builds before querying the store:
concatenate the `nodes` (resp. `relations`) arguments of every tool call
named `"search"`, then apply `dedupThenNormalize` to each list. -/
def searchQueryLists (calls : List SearchToolCall) : List String × List String :=
  let node_list := calls.foldl (fun acc c => if c.name = "search" then acc ++ c.nodes else acc) []
  let relation_list :=
    calls.foldl (fun acc c => if c.name = "search" then acc ++ c.relations else acc) []
  (dedupThenNormalize node_list, dedupThenNormalize relation_list)

end MemoryGraph

/-- Dot product `reduce(dot = 0.0, i IN range(0, size(v)-1) | dot + v[i]*q[i])`
of the similarity Cypher (Cypher `range` is end-inclusive, so every
component participates). -/
def dotProduct (v q : List ℝ) : ℝ :=
  (List.zipWith (fun a b => a * b) v q).sum

/-- Sum of squares `reduce(l2 = 0.0, i IN range(0, size(v)-1) | l2 + v[i]*v[i])`. -/
def sumSquares (v : List ℝ) : ℝ :=
  (v.map (fun x => x * x)).sum

/-- Neo4j `round(x, 4)`: rounding to 4 decimal digits. -/
noncomputable def round4 (x : ℝ) : ℝ :=
  (round (x * 10000) : ℤ) / 10000

/-- The `similarity` column of the `_search` Cypher query: cosine
similarity (dot product over the product of L2 norms) rounded to 4
decimal digits. -/
noncomputable def roundedSimilarity (v q : List ℝ) : ℝ :=
  round4 (dotProduct v q / (Real.sqrt (sumSquares v) * Real.sqrt (sumSquares q)))

/-- The `WHERE similarity >= $threshold` gate of the `_search` Cypher
query, applied to a stored node embedding `v` and query embedding `q`. -/
def similarityIncluded (v q : List ℝ) (th : ℝ) : Prop :=
  roundedSimilarity v q ≥ th

/-- A similarity-search result row as consumed by the retrieval pipeline
`MemoryGraph.search` (it reads exactly the `source`, `relation` and
`destination` keys of each row; the id and similarity columns are never
consumed there and are not tracked). -/
structure SearchRow where
  source : String
  relation : String
  destination : String
deriving DecidableEq, Repr

/-- `[[item["source"], item["relation"], item["destination"]] for item in search_output]`:
one tokenized BM25 document per row. -/
def toDoc (r : SearchRow) : List String :=
  [r.source, r.relation, r.destination]

/-- `tokenized_query = query.split(" ")`: naive whitespace tokenization. -/
def tokenizeQuery (q : String) : List String :=
  q.splitOn " "

/-- Mapping a reranked document back to a structured result
(`{"source": item[0], "relation": item[1], "destination": item[2]}`);
corpus documents always have exactly three tokens. -/
def mkResult (doc : List String) : SearchRow :=
  ⟨doc.getD 0 "", doc.getD 1 "", doc.getD 2 ""⟩

namespace MemoryGraph

/-- Embedding of the retrieval pipeline `MemoryGraph.search` from the
similarity-search rows on.  `getTopN` is the `rank_bm25` collaborator
(`BM25Okapi(corpus).get_top_n(tokenized_query, corpus, n=5)`), abstract
here; the theorems assume only its documented contract (it returns at
most `n` documents drawn from the corpus, best matches first). -/
def search (getTopN : List (List String) → List String → Nat → List (List String))
    (rows : List SearchRow) (query : String) : List SearchRow :=
  if rows.isEmpty then []
  else
    let seqs := rows.map toDoc
    let reranked := getTopN seqs (tokenizeQuery query) 5
    reranked.map mkResult

end MemoryGraph

/-- A Python value as it can occur in a message-metadata dict
(`embedchain/memory/utils.py`).  `vdict` entries keep insertion order;
`vnone` is Python's `None` (it arises when a nested merge of two empty
dicts stores its `None` result). -/
inductive Val where
  | vnone : Val
  | vbool : Bool → Val
  | vint : Int → Val
  | vstr : String → Val
  | vlist : List Val → Val
  | vdict : List (String × Val) → Val

/-- A Python dict as an insertion-ordered association list with unique keys. -/
abbrev PyDict := List (String × Val)

/-- Python's `type(v)`, as a tag: `type(x) is not type(y)` is tag
inequality (`bool` and `int` are distinct types in Python). -/
def typeTag : Val → Nat
  | .vnone => 0
  | .vbool _ => 1
  | .vint _ => 2
  | .vstr _ => 3
  | .vlist _ => 4
  | .vdict _ => 5

/-- Dict lookup `d[k]` / membership `k in d` (a `none` result means the
key is absent). -/
def pyLookup (k : String) : PyDict → Option Val
  | [] => none
  | (k1, v) :: rest => if k1 = k then some v else pyLookup k rest

/-- Dict assignment `d[k] = v`: replace the value at `k` in place if the
key exists, otherwise append the new pair at the end (Python dicts keep
insertion order). -/
def pyUpdate : PyDict → String → Val → PyDict
  | [], k, v => [(k, v)]
  | (k1, w) :: rest, k, v =>
    if k1 = k then (k1, v) :: rest else (k1, w) :: pyUpdate rest k v

/-- The type-mismatch error raised by `merge_metadata_dict`:
`ValueError(f'additional_kwargs["{k}"] already exists in this message, but with a different type.')`. -/
def mismatchMsg (k : String) : String :=
  "additional_kwargs[\"" ++ k ++ "\"] already exists in this message, but with a different type."

/-- The unmergeable-value error raised by `merge_metadata_dict`:
`ValueError(f"Additional kwargs key {k} already exists in this message.")`. -/
def unmergeableMsg (k : String) : String :=
  "Additional kwargs key " ++ k ++ " already exists in this message."

/-- The merge loop of `merge_metadata_dict` once both arguments are
truthy dicts: `merged = left.copy()`, then for each `(k, v)` of `right`
in order: absent keys are assigned; a type mismatch raises; strings
concatenate; dicts recurse through `merge_metadata_dict` itself (the
result `None` of merging two empty dicts is stored as `None`); any other
same-typed value raises.  The recursive call on nested dicts is inlined
here (both sides are dicts at that point, so the wrapper's truthiness
checks reduce to emptiness checks). -/
def mergeInto : PyDict → PyDict → Except String PyDict
  | m, [] => .ok m
  | m, (k, v) :: rest =>
    match pyLookup k m with
    | none => mergeInto (pyUpdate m k v) rest
    | some w =>
      if typeTag w ≠ typeTag v then
        .error (mismatchMsg k)
      else
        match w, v with
        | .vstr a, .vstr b => mergeInto (pyUpdate m k (.vstr (a ++ b))) rest
        | .vdict a, .vdict b =>
          if a.isEmpty && b.isEmpty then mergeInto (pyUpdate m k .vnone) rest
          else if a.isEmpty then mergeInto (pyUpdate m k (.vdict b)) rest
          else if b.isEmpty then mergeInto (pyUpdate m k (.vdict a)) rest
          else
            match mergeInto a b with
            | .ok sub => mergeInto (pyUpdate m k (.vdict sub)) rest
            | .error e => .error e
        | _, _ => .error (unmergeableMsg k)
  termination_by _m r => sizeOf r

/-- Embedding of `merge_metadata_dict(left, right)`: `None` and `{}` are
falsy, so both-falsy returns `None`, one-falsy returns the other side
unchanged, and two truthy dicts run the merge loop. -/
def merge_metadata_dict (left right : Option PyDict) : Except String (Option PyDict) :=
  match left, right with
  | none, none => .ok none
  | none, some r => if r.isEmpty then .ok none else .ok (some r)
  | some l, none => if l.isEmpty then .ok none else .ok (some l)
  | some l, some r =>
    if l.isEmpty && r.isEmpty then .ok none
    else if l.isEmpty then .ok (some r)
    else if r.isEmpty then .ok (some l)
    else
      match mergeInto l r with
      | .ok m => .ok (some m)
      | .error e => .error e

/-- Python truthiness of an optional dict: `None` and `{}` are falsy. -/
def pyTruthy (d : Option PyDict) : Bool :=
  match d with
  | none => false
  | some m => !m.isEmpty

/-- How Python stores the `Optional[dict]` result of a nested
`merge_metadata_dict` call back into `merged[k]`. -/
def optToVal : Option PyDict → Val
  | none => .vnone
  | some d => .vdict d

/-- The handling of one shared key of the merge loop, factored out for the
statements below: given the current value `w` under `k` and the incoming
same-typed value `v`, the merged value (or the error raised).  Strings
concatenate; dicts go through `merge_metadata_dict`; anything else raises. -/
def mergeShared (k : String) (w v : Val) : Except String Val :=
  match w, v with
  | .vstr a, .vstr b => .ok (.vstr (a ++ b))
  | .vdict a, .vdict b =>
    if a.isEmpty && b.isEmpty then .ok .vnone
    else if a.isEmpty then .ok (.vdict b)
    else if b.isEmpty then .ok (.vdict a)
    else
      match mergeInto a b with
      | .ok sub => .ok (.vdict sub)
      | .error e => .error e
  | _, _ => .error (unmergeableMsg k)

/-- The state a successful `_update_relationship(source, target, relationship)`
leaves the concrete store in: both nodes merged, every prior edge from
`s` to `t` deleted, and the single new normalized edge appended. -/
def afterReplace (g : GraphState) (s t r : String) : GraphState :=
  let g1 := runMergeNodesState g s t
  { g1 with
    edges := g1.edges.filter (fun e => !(isEdgeBetween s t e)) ++ [⟨s, normalizeName r, t⟩] }

/-- A degenerate graph-store collaborator whose creation statement never
returns a row (used to exercise the failure branch of the replacement
protocol, which the concrete store never reaches). -/
def emptyRowStore : GraphStore Unit :=
  { runMergeNodes := fun s _ _ => s
    runDeleteEdges := fun s _ _ => s
    runCreateEdge := fun s _ _ _ => (s, [])
    runAddTriple := fun s _ _ _ _ _ => (s, []) }

/-- A trivial reranker satisfying the documented `rank_bm25` contract
(returns at most `n` documents drawn from the corpus, in rank order),
used to instantiate the retrieval-pipeline theorems. -/
def takeTopN (corpus : List (List String)) (_query : List String) (n : Nat) :
    List (List String) :=
  corpus.take n

theorem insertNode_mem_self (g : GraphState) (n : String) : n ∈ (insertNode g n).nodes := by
  unfold insertNode
  by_cases h : n ∈ g.nodes
  · simp [h]
  · simp [h]

theorem insertNode_mem_mono (g : GraphState) (n m : String) (h : m ∈ g.nodes) :
    m ∈ (insertNode g n).nodes := by
  unfold insertNode
  by_cases hn : n ∈ g.nodes
  · simpa [hn]
  · simp [hn, h]

theorem insertNode_edges (g : GraphState) (n : String) : (insertNode g n).edges = g.edges := by
  unfold insertNode
  by_cases h : n ∈ g.nodes <;> simp [h]

theorem runMergeNodesState_mem_left (g : GraphState) (s t : String) :
    s ∈ (runMergeNodesState g s t).nodes :=
  insertNode_mem_mono _ _ _ (insertNode_mem_self g s)

theorem runMergeNodesState_mem_right (g : GraphState) (s t : String) :
    t ∈ (runMergeNodesState g s t).nodes :=
  insertNode_mem_self _ t

theorem runMergeNodesState_edges (g : GraphState) (s t : String) :
    (runMergeNodesState g s t).edges = g.edges := by
  unfold runMergeNodesState
  rw [insertNode_edges, insertNode_edges]

/-- On the concrete store, `_update_relationship` always succeeds and
produces `afterReplace`: the `MERGE` step guarantees both nodes exist, so
the `CREATE ... RETURN` query matches exactly one pair and returns a row. -/
theorem updateRelationship_neo4j (g : GraphState) (s t r : String) :
    MemoryGraph.updateRelationship neo4jStore g s t r = .ok (afterReplace g s t r) := by
  have hs : s ∈ (runMergeNodesState g s t).nodes := runMergeNodesState_mem_left g s t
  have ht : t ∈ (runMergeNodesState g s t).nodes := runMergeNodesState_mem_right g s t
  unfold MemoryGraph.updateRelationship afterReplace neo4jStore
  simp [runCreateEdgeState, runDeleteEdgesState, hs, ht]

theorem filter_not_then_filter {α : Type} (p : α → Bool) (l : List α) :
    (l.filter (fun a => !(p a))).filter p = [] := by
  induction l with
  | nil => simp
  | cons x xs ih =>
    by_cases h : p x <;> simp [h, ih]

theorem filter_not_idem {α : Type} (p : α → Bool) (l : List α) :
    (l.filter (fun a => !(p a))).filter (fun a => !(p a)) = l.filter (fun a => !(p a)) := by
  induction l with
  | nil => simp
  | cons x xs ih =>
    by_cases h : p x <;> simp [h, ih]

theorem afterReplace_filter (g : GraphState) (A B r : String) :
    (afterReplace g A B r).edges.filter (isEdgeBetween A B) = [⟨A, normalizeName r, B⟩] := by
  unfold afterReplace
  simp [List.filter_append, filter_not_then_filter, isEdgeBetween]

/-- C1 (amended): after `replace(A, B, r1)` followed by `replace(A, B, r2)`
on any starting graph, both calls succeed and the graph contains exactly
one directed edge from A to B, labelled the normalized form of `r2`
(lower-cased, spaces replaced with underscores): the protocol first
deletes every existing directed edge from A to B regardless of label,
then creates the single new edge. -/
theorem c1_replace_twice_single_edge (g : GraphState) (A B r1 r2 : String) :
    ∃ g1 g2 : GraphState,
      MemoryGraph.updateRelationship neo4jStore g A B r1 = .ok g1 ∧
      MemoryGraph.updateRelationship neo4jStore g1 A B r2 = .ok g2 ∧
      g2.edges.filter (isEdgeBetween A B) = [⟨A, normalizeName r2, B⟩] :=
  ⟨afterReplace g A B r1, afterReplace (afterReplace g A B r1) A B r2,
    updateRelationship_neo4j g A B r1, updateRelationship_neo4j _ A B r2,
    afterReplace_filter _ A B r2⟩

/-- C1 (counterexample to the claim as stated): with `r2 = "DIS LIKES"`,
the single surviving edge from `a` to `b` is labelled `"dis_likes"`, not
`r2`: the claim's "labelled r2" fails for labels that are not already
normalized. -/
theorem c1_counterexample :
    MemoryGraph.updateRelationship neo4jStore ⟨[], []⟩ "a" "b" "likes"
        = .ok ⟨["a", "b"], [⟨"a", "likes", "b"⟩]⟩
    ∧ MemoryGraph.updateRelationship neo4jStore ⟨["a", "b"], [⟨"a", "likes", "b"⟩]⟩
        "a" "b" "DIS LIKES"
        = .ok ⟨["a", "b"], [⟨"a", "dis_likes", "b"⟩]⟩
    ∧ (GraphState.edges ⟨["a", "b"], [⟨"a", "dis_likes", "b"⟩]⟩).filter (isEdgeBetween "a" "b")
        ≠ [⟨"a", "DIS LIKES", "b"⟩] :=
  ⟨rfl, rfl, by decide⟩

/-- C5 (confirmed): for every graph-store collaborator, the
relationship-replacement operation raises the explicit error naming both
the source and the destination exactly when the final edge-creation query
returns no rows; when the creation query returns rows, it succeeds with
the resulting state. -/
theorem c5_replacement_error_iff {S : Type} (st : GraphStore S) (s0 : S)
    (src tgt rel : String) :
    ((st.runCreateEdge (st.runDeleteEdges (st.runMergeNodes s0 src tgt) src tgt) src tgt
        (normalizeName rel)).2 = [] →
      MemoryGraph.updateRelationship st s0 src tgt rel =
        .error ("Failed to update or create relationship between " ++ src ++ " and " ++ tgt))
    ∧ ((st.runCreateEdge (st.runDeleteEdges (st.runMergeNodes s0 src tgt) src tgt) src tgt
        (normalizeName rel)).2 ≠ [] →
      MemoryGraph.updateRelationship st s0 src tgt rel =
        .ok (st.runCreateEdge (st.runDeleteEdges (st.runMergeNodes s0 src tgt) src tgt) src tgt
          (normalizeName rel)).1) := by
  unfold MemoryGraph.updateRelationship
  constructor
  · intro h
    simp [h]
  · intro h
    simp [List.isEmpty_iff, h]

theorem c5_witness :
    MemoryGraph.updateRelationship emptyRowStore () "alice" "paris" "lives in"
        = .error "Failed to update or create relationship between alice and paris"
    ∧ MemoryGraph.updateRelationship neo4jStore ⟨[], []⟩ "alice" "paris" "lives in"
        = .ok (neo4jStore.runCreateEdge
            (neo4jStore.runDeleteEdges (neo4jStore.runMergeNodes ⟨[], []⟩ "alice" "paris")
              "alice" "paris") "alice" "paris" (normalizeName "lives in")).1 :=
  ⟨(c5_replacement_error_iff emptyRowStore () "alice" "paris" "lives in").1 rfl,
    (c5_replacement_error_iff neo4jStore ⟨[], []⟩ "alice" "paris" "lives in").2 (by decide)⟩

/-- C9 (confirmed): a tool call named `noop` is handled by a bare
`continue`: it performs no store mutation, queues nothing, and raises no
error, so `add` behaves on `noop :: rest` exactly as on `rest` (in
particular, with `rest = []`, the node and edge state before and after
the call is unchanged). -/
theorem c9_noop_is_identity {S : Type} (st : GraphStore S) (s : S) (tc : ToolCall)
    (rest : List ToolCall) (h : tc.name = "noop") :
    MemoryGraph.add st s (tc :: rest) = MemoryGraph.add st s rest := by
  have h1 : tc.name ≠ "add_graph_memory" := by rw [h]; decide
  have h2 : tc.name ≠ "update_graph_memory" := by rw [h]; decide
  unfold MemoryGraph.add
  simp [MemoryGraph.reconcileLoop, h1, h2]

theorem c9_witness :
    MemoryGraph.add neo4jStore ⟨[], []⟩ [⟨"noop", ⟨"a", "b", "c", "d", "e"⟩⟩]
      = MemoryGraph.add neo4jStore ⟨[], []⟩ [] :=
  c9_noop_is_identity neo4jStore ⟨[], []⟩ ⟨"noop", ⟨"a", "b", "c", "d", "e"⟩⟩ [] rfl

/-- C8 (counterexample to the claim as stated): a tool call whose name is
none of `add_graph_memory`, `update_graph_memory`, `noop` falls through
every `elif` branch of the dispatch loop: `add` completes successfully
with the store untouched instead of rejecting it with a malformed-output
error. -/
theorem c8_counterexample :
    MemoryGraph.add neo4jStore ⟨[], []⟩ [⟨"bogus_tool", ⟨"a", "b", "c", "d", "e"⟩⟩]
      = .ok ⟨⟨[], []⟩, none, 0⟩ := rfl

/-- C8 (amended): a tool call with an unrecognized name is silently
ignored: no error is raised, no mutation is performed and nothing is
queued, so `add` behaves on it exactly as if the call were absent. -/
theorem c8_unknown_tool_ignored {S : Type} (st : GraphStore S) (s : S) (tc : ToolCall)
    (rest : List ToolCall) (h1 : tc.name ≠ "add_graph_memory")
    (h2 : tc.name ≠ "update_graph_memory") :
    MemoryGraph.add st s (tc :: rest) = MemoryGraph.add st s rest := by
  unfold MemoryGraph.add
  simp [MemoryGraph.reconcileLoop, h1, h2]

theorem c8_witness :
    MemoryGraph.add neo4jStore ⟨[], []⟩ [⟨"bogus_tool", ⟨"a", "b", "c", "d", "e"⟩⟩]
      = MemoryGraph.add neo4jStore ⟨[], []⟩ [] :=
  c8_unknown_tool_ignored neo4jStore ⟨[], []⟩ ⟨"bogus_tool", ⟨"a", "b", "c", "d", "e"⟩⟩ []
    (by decide) (by decide)

theorem reconcileLoop_queue {S : Type} (st : GraphStore S) (tcs : List ToolCall) :
    ∀ (s s1 : S) (q : List ToolArgs),
      MemoryGraph.reconcileLoop st s tcs = .ok (s1, q) →
      q = (tcs.filter (fun t => t.name == "add_graph_memory")).map ToolCall.args := by
  induction tcs with
  | nil =>
    intro s s1 q h
    simp [MemoryGraph.reconcileLoop] at h
    simp [← h.2]
  | cons tc rest ih =>
    intro s s1 q h
    by_cases h1 : tc.name = "add_graph_memory"
    · rw [MemoryGraph.reconcileLoop, if_pos h1] at h
      cases hr : MemoryGraph.reconcileLoop st s rest with
      | error e => rw [hr] at h; exact absurd h (by simp)
      | ok p =>
        obtain ⟨s2, q2⟩ := p
        rw [hr] at h
        simp only [Except.ok.injEq, Prod.mk.injEq] at h
        obtain ⟨h3, h4⟩ := h
        subst h3
        subst h4
        simp [List.filter_cons, h1]
        exact ih s s2 q2 hr
    · by_cases h2 : tc.name = "update_graph_memory"
      · rw [MemoryGraph.reconcileLoop, if_neg h1, if_pos h2] at h
        cases hu : MemoryGraph.updateRelationship st s tc.args.source tc.args.destination
            tc.args.relationship with
        | error e => rw [hu] at h; exact absurd h (by simp)
        | ok s2 =>
          rw [hu] at h
          have hname : (tc.name == "add_graph_memory") = false := by
            simp [h1]
          simp [List.filter_cons, hname, ih s2 s1 q h]
      · rw [MemoryGraph.reconcileLoop, if_neg h1, if_neg h2] at h
        have hname : (tc.name == "add_graph_memory") = false := by
          simp [h1]
        simp [List.filter_cons, hname, ih s s1 q h]

/-- C2 (amended): `add` returns `None` (the function body has no `return`
statement); the count it computes and logs equals the number of
`add_graph_memory` tool calls — tool calls classified as
`update_graph_memory` or `noop` do not contribute to it. -/
theorem c2_add_returns_none {S : Type} (st : GraphStore S) (s : S) (tcs : List ToolCall)
    (o : AddOutcome S) (h : MemoryGraph.add st s tcs = .ok o) :
    o.returned = none ∧
      o.logged = (tcs.filter (fun t => t.name == "add_graph_memory")).length := by
  unfold MemoryGraph.add at h
  cases hr : MemoryGraph.reconcileLoop st s tcs with
  | error e => rw [hr] at h; exact absurd h (by simp)
  | ok p =>
    obtain ⟨s1, q⟩ := p
    rw [hr] at h
    simp only [Except.ok.injEq] at h
    subst h
    refine ⟨rfl, ?_⟩
    have hq := reconcileLoop_queue st tcs s s1 q hr
    simp [hq]

/-- C2 (counterexample to the claim as stated): a run that inserts exactly
one new triple as a new edge returns `None`, not the number of triples
inserted. -/
theorem c2_counterexample :
    MemoryGraph.add neo4jStore ⟨[], []⟩
        [⟨"add_graph_memory", ⟨"alice", "person", "knows", "bob", "person"⟩⟩]
      = .ok ⟨⟨["alice", "bob"], [⟨"alice", "knows", "bob"⟩]⟩, none, 1⟩
    ∧ (none : Option Nat) ≠ some 1 :=
  ⟨rfl, by decide⟩

theorem c2_witness :
    (⟨⟨["alice", "bob"], [⟨"alice", "knows", "bob"⟩]⟩, none, 1⟩ :
        AddOutcome GraphState).returned = none
    ∧ (⟨⟨["alice", "bob"], [⟨"alice", "knows", "bob"⟩]⟩, none, 1⟩ :
        AddOutcome GraphState).logged
      = (([⟨"add_graph_memory", ⟨"alice", "person", "knows", "bob", "person"⟩⟩] :
          List ToolCall).filter (fun t => t.name == "add_graph_memory")).length :=
  c2_add_returns_none neo4jStore ⟨[], []⟩
    [⟨"add_graph_memory", ⟨"alice", "person", "knows", "bob", "person"⟩⟩] _ rfl

/-- C6 (counterexample to the claim as stated): `_search` deduplicates the
raw extracted names with `list(set(...))` BEFORE normalizing, so the two
extracted names `"New York"` and `"new_york"`, which normalize to the
same identity, yield two entries `"new_york"` in the normalized node
list, not a single one. -/
theorem c6_counterexample :
    ((MemoryGraph.searchQueryLists [⟨"search", ["New York", "new_york"], []⟩]).1).count
        "new_york" = 2
    ∧ ((MemoryGraph.searchQueryLists [⟨"search", ["New York", "new_york"], []⟩]).1).count
        "new_york" ≠ 1 := by
  constructor
  · decide
  · decide

/-- C6 (amended): the node and relation lists are deduplicated on the raw
extracted strings and then normalized: exact raw duplicates collapse (the
deduplicated raw list has no duplicates), and every extracted name
contributes its normalized form to the resulting list — so two raw-distinct
names that normalize to the same identity contribute one entry each. -/
theorem c6_dedup_before_normalize (l : List String) :
    l.dedup.Nodup
    ∧ MemoryGraph.dedupThenNormalize l = l.dedup.map normalizeName
    ∧ (∀ x ∈ l, normalizeName x ∈ MemoryGraph.dedupThenNormalize l)
    ∧ (∀ y ∈ MemoryGraph.dedupThenNormalize l, ∃ x ∈ l, y = normalizeName x) := by
  refine ⟨List.nodup_dedup l, rfl, ?_, ?_⟩
  · intro x hx
    exact List.mem_map_of_mem _ (List.mem_dedup.mpr hx)
  · intro y hy
    unfold MemoryGraph.dedupThenNormalize at hy
    obtain ⟨x, hx, rfl⟩ := List.mem_map.mp hy
    exact ⟨x, List.mem_dedup.mp hx, rfl⟩

theorem c6_witness :
    normalizeName "New York" ∈ MemoryGraph.dedupThenNormalize ["New York"] :=
  (c6_dedup_before_normalize ["New York"]).2.2.1 "New York" (by decide)

/-- C3 (confirmed): a stored node embedding `v` passes the similarity gate
for query embedding `q` exactly when the cosine similarity — dot product
over the product of L2 norms — rounded to 4 decimal digits is `≥` the
threshold; in particular a similarity exactly at the threshold is
included (the rounding is applied before the comparison), and the default
threshold is 0.7. -/
theorem c3_similarity_gating (v q : List ℝ) (th : ℝ) :
    (similarityIncluded v q th ↔
      round4 (dotProduct v q / (Real.sqrt (sumSquares v) * Real.sqrt (sumSquares q))) ≥ th)
    ∧ similarityIncluded v q (roundedSimilarity v q)
    ∧ MemoryGraph.threshold = 7 / 10 := by
  refine ⟨Iff.rfl, le_refl _, ?_⟩
  norm_num [MemoryGraph.threshold]

/-- C7 (confirmed): the retrieval pipeline returns at most 5 results
(`n=5` is fixed at the `get_top_n` call site), each one the
`{source, relation, destination}` projection of a similarity-search row,
listed in the reranker's rank order; an empty row set short-circuits to
the empty list with no error.  `getTopN` is the `rank_bm25` collaborator,
assumed only to return at most `n` documents drawn from its corpus. -/
theorem c7_search_contract
    (getTopN : List (List String) → List String → Nat → List (List String))
    (hlen : ∀ c q n, (getTopN c q n).length ≤ n)
    (hmem : ∀ c q n d, d ∈ getTopN c q n → d ∈ c)
    (rows : List SearchRow) (query : String) :
    (rows = [] → MemoryGraph.search getTopN rows query = [])
    ∧ (MemoryGraph.search getTopN rows query).length ≤ 5
    ∧ (∀ res ∈ MemoryGraph.search getTopN rows query,
        ∃ row ∈ rows, res = ⟨row.source, row.relation, row.destination⟩)
    ∧ (rows ≠ [] →
        MemoryGraph.search getTopN rows query
          = (getTopN (rows.map toDoc) (tokenizeQuery query) 5).map mkResult) := by
  unfold MemoryGraph.search
  by_cases h : rows.isEmpty
  · have hnil : rows = [] := by simpa using h
    refine ⟨fun _ => by simp [h], by simp [h], ?_, fun hne => absurd hnil hne⟩
    intro res hres
    rw [if_pos h] at hres
    simp at hres
  · have hne : ¬ rows = [] := by simpa using h
    refine ⟨fun hh => absurd hh hne, ?_, ?_, fun _ => by rw [if_neg h]⟩
    · rw [if_neg h]
      have := hlen (rows.map toDoc) (tokenizeQuery query) 5
      simpa using this
    · rw [if_neg h]
      intro res hres
      obtain ⟨doc, hdoc, rfl⟩ := List.mem_map.mp hres
      have hdc : doc ∈ rows.map toDoc := hmem _ _ _ _ hdoc
      obtain ⟨row, hrow, rfl⟩ := List.mem_map.mp hdc
      exact ⟨row, hrow, rfl⟩

theorem c7_witness :
    (MemoryGraph.search takeTopN [⟨"alice", "lives_in", "paris"⟩]
        "where does alice live").length ≤ 5 :=
  (c7_search_contract takeTopN
    (fun c q n => List.length_take_le n c)
    (fun c q n d hd => List.mem_of_mem_take (by simpa [takeTopN] using hd))
    [⟨"alice", "lives_in", "paris"⟩] "where does alice live").2.1

theorem pyLookup_update_self (m : PyDict) (k : String) (v : Val) :
    pyLookup k (pyUpdate m k v) = some v := by
  induction m with
  | nil => simp [pyUpdate, pyLookup]
  | cons kv rest ih =>
    obtain ⟨k1, w⟩ := kv
    by_cases h : k1 = k
    · simp [pyUpdate, pyLookup, h]
    · simp [pyUpdate, pyLookup, h, ih]

theorem pyLookup_update_ne (m : PyDict) (kt kq : String) (v : Val) (h : kt ≠ kq) :
    pyLookup kq (pyUpdate m kt v) = pyLookup kq m := by
  induction m with
  | nil => simp [pyUpdate, pyLookup, h]
  | cons kv rest ih =>
    obtain ⟨k1, w⟩ := kv
    by_cases h1 : k1 = kt
    · subst h1
      simp [pyUpdate, pyLookup, h]
    · by_cases h2 : k1 = kq
      · subst h2
        simp [pyUpdate, pyLookup, h1]
      · simp [pyUpdate, pyLookup, h1, h2, ih]

theorem pyLookup_eq_none_of_not_mem (k : String) (l : PyDict)
    (h : k ∉ l.map Prod.fst) : pyLookup k l = none := by
  induction l with
  | nil => rfl
  | cons kv rest ih =>
    obtain ⟨k1, v⟩ := kv
    rw [List.map_cons] at h
    have h1 : k1 ≠ k := by
      intro hh
      subst hh
      exact h (List.mem_cons_self _ _)
    have h2 : k ∉ rest.map Prod.fst := by
      intro hh
      exact h (List.mem_cons_of_mem _ hh)
    simp [pyLookup, h1, ih h2]

theorem mergeInto_nil (m : PyDict) : mergeInto m [] = .ok m := by
  rw [mergeInto]

theorem mergeInto_cons_none (m : PyDict) (k : String) (v : Val) (rest : PyDict)
    (h : pyLookup k m = none) :
    mergeInto m ((k, v) :: rest) = mergeInto (pyUpdate m k v) rest := by
  rw [mergeInto, h]

theorem mergeInto_cons_some (m : PyDict) (k : String) (w v : Val) (rest : PyDict)
    (h : pyLookup k m = some w) :
    mergeInto m ((k, v) :: rest) =
      if typeTag w ≠ typeTag v then .error (mismatchMsg k)
      else
        match mergeShared k w v with
        | .ok mv => mergeInto (pyUpdate m k mv) rest
        | .error e => .error e := by
  rw [mergeInto, h]
  cases w <;> cases v <;> simp [mergeShared, typeTag]
  split_ifs <;> simp_all
  cases hab : mergeInto _ _ <;> simp [hab]

theorem mergeShared_str (k : String) (a b : String) :
    mergeShared k (.vstr a) (.vstr b) = .ok (.vstr (a ++ b)) := rfl

theorem mergeShared_dict (k : String) (a b : PyDict) :
    mergeShared k (.vdict a) (.vdict b) =
      (merge_metadata_dict (some a) (some b)).map optToVal := by
  unfold mergeShared merge_metadata_dict
  by_cases ha : a.isEmpty <;> by_cases hb : b.isEmpty
  · simp [ha, hb, optToVal, Except.map]
  · simp [ha, hb, optToVal, Except.map]
  · simp [ha, hb, optToVal, Except.map]
  · simp only [ha, hb, Bool.false_and, Bool.and_self, if_false]
    simp [ha, hb]
    cases hab : mergeInto a b <;> simp [hab, optToVal, Except.map]

theorem mergeShared_other (k : String) (w v : Val) (ht : typeTag w = typeTag v)
    (h3 : typeTag v ≠ 3) (h5 : typeTag v ≠ 5) :
    mergeShared k w v = .error (unmergeableMsg k) := by
  cases w <;> cases v <;> simp_all [typeTag, mergeShared]

theorem mergeInto_step (m : PyDict) (k1 : String) (v1 : Val) (rest : PyDict) :
    (∃ e, mergeInto m ((k1, v1) :: rest) = .error e)
    ∨ ∃ m1, mergeInto m ((k1, v1) :: rest) = mergeInto m1 rest
        ∧ ∀ kq, kq ≠ k1 → pyLookup kq m1 = pyLookup kq m := by
  cases hl : pyLookup k1 m with
  | none =>
    right
    exact ⟨pyUpdate m k1 v1, mergeInto_cons_none m k1 v1 rest hl,
      fun kq hkq => pyLookup_update_ne m k1 kq v1 (fun hh => hkq hh.symm)⟩
  | some w =>
    by_cases ht : typeTag w ≠ typeTag v1
    · left
      exact ⟨mismatchMsg k1, by rw [mergeInto_cons_some m k1 w v1 rest hl, if_pos ht]⟩
    · cases hs : mergeShared k1 w v1 with
      | error e0 =>
        left
        exact ⟨e0, by rw [mergeInto_cons_some m k1 w v1 rest hl, if_neg ht, hs]⟩
      | ok mv =>
        right
        refine ⟨pyUpdate m k1 mv, ?_, fun kq hkq => pyLookup_update_ne m k1 kq mv
          (fun hh => hkq hh.symm)⟩
        rw [mergeInto_cons_some m k1 w v1 rest hl, if_neg ht, hs]

theorem mergeInto_at_key (k : String) (r : PyDict) :
    ∀ m : PyDict, (r.map Prod.fst).Nodup →
      ((pyLookup k r = none → ∀ m', mergeInto m r = .ok m' → pyLookup k m' = pyLookup k m)
      ∧ (∀ v w, pyLookup k r = some v → pyLookup k m = some w →
          ((typeTag w ≠ typeTag v → ∃ e, mergeInto m r = .error e)
          ∧ (∀ mv, mergeShared k w v = .ok mv →
              ∀ m', mergeInto m r = .ok m' → pyLookup k m' = some mv)
          ∧ (∀ e0, mergeShared k w v = .error e0 → ∃ e, mergeInto m r = .error e)))
      ∧ (∀ v, pyLookup k r = some v → pyLookup k m = none →
          ∀ m', mergeInto m r = .ok m' → pyLookup k m' = some v)) := by
  induction r with
  | nil =>
    intro m _
    refine ⟨?_, ?_, ?_⟩
    · intro _ m' h'
      rw [mergeInto_nil] at h'
      cases h'
      rfl
    · intro v w hv
      simp [pyLookup] at hv
    · intro v hv
      simp [pyLookup] at hv
  | cons kv rest ih =>
    obtain ⟨k1, v1⟩ := kv
    intro m hnod
    rw [List.map_cons, List.nodup_cons] at hnod
    obtain ⟨hnod1, hnodr⟩ := hnod
    by_cases hk : k1 = k
    · subst hk
      have hlr : pyLookup k1 ((k1, v1) :: rest) = some v1 := by simp [pyLookup]
      have hrestnone : pyLookup k1 rest = none := pyLookup_eq_none_of_not_mem k1 rest hnod1
      refine ⟨?_, ?_, ?_⟩
      · intro h0
        rw [hlr] at h0
        cases h0
      · intro v w hv hw
        rw [hlr, Option.some.injEq] at hv
        subst hv
        refine ⟨?_, ?_, ?_⟩
        · intro hne
          exact ⟨mismatchMsg k1, by rw [mergeInto_cons_some m k1 w v1 rest hw, if_pos hne]⟩
        · intro mv hmv m' hm'
          by_cases ht : typeTag w ≠ typeTag v1
          · rw [mergeInto_cons_some m k1 w v1 rest hw, if_pos ht] at hm'
            cases hm'
          · rw [mergeInto_cons_some m k1 w v1 rest hw, if_neg ht, hmv] at hm'
            have := (ih (pyUpdate m k1 mv) hnodr).1 hrestnone m' hm'
            rw [this, pyLookup_update_self]
        · intro e0 he0
          by_cases ht : typeTag w ≠ typeTag v1
          · exact ⟨mismatchMsg k1, by rw [mergeInto_cons_some m k1 w v1 rest hw, if_pos ht]⟩
          · exact ⟨e0, by rw [mergeInto_cons_some m k1 w v1 rest hw, if_neg ht, he0]⟩
      · intro v hv hnone m' hm'
        rw [hlr, Option.some.injEq] at hv
        subst hv
        rw [mergeInto_cons_none m k1 v1 rest hnone] at hm'
        have := (ih (pyUpdate m k1 v1) hnodr).1 hrestnone m' hm'
        rw [this, pyLookup_update_self]
    · have hlr : pyLookup k ((k1, v1) :: rest) = pyLookup k rest := by
        simp [pyLookup, hk]
      have hk1 : k ≠ k1 := fun hh => hk hh.symm
      rcases mergeInto_step m k1 v1 rest with ⟨e, he⟩ | ⟨m1, heq, hpres⟩
      · refine ⟨?_, ?_, ?_⟩
        · intro _ m' hm'
          rw [he] at hm'
          cases hm'
        · intro v w _ _
          refine ⟨fun _ => ⟨e, he⟩, ?_, fun e0 _ => ⟨e, he⟩⟩
          intro mv _ m' hm'
          rw [he] at hm'
          cases hm'
        · intro v _ _ m' hm'
          rw [he] at hm'
          cases hm'
      · have hm1 : pyLookup k m1 = pyLookup k m := hpres k hk1
        refine ⟨?_, ?_, ?_⟩
        · intro h0 m' hm'
          rw [hlr] at h0
          rw [heq] at hm'
          have := (ih m1 hnodr).1 h0 m' hm'
          rw [this, hm1]
        · intro v w hv hw
          rw [hlr] at hv
          have hw1 : pyLookup k m1 = some w := by rw [hm1]; exact hw
          have IH2 := (ih m1 hnodr).2.1 v w hv hw1
          refine ⟨?_, ?_, ?_⟩
          · intro hne
            obtain ⟨e, he2⟩ := IH2.1 hne
            exact ⟨e, by rw [heq, he2]⟩
          · intro mv hmv m' hm'
            rw [heq] at hm'
            exact IH2.2.1 mv hmv m' hm'
          · intro e0 he0
            obtain ⟨e, he2⟩ := IH2.2.2 e0 he0
            exact ⟨e, by rw [heq, he2]⟩
        · intro v hv hnone m' hm'
          rw [hlr] at hv
          rw [heq] at hm'
          have hn1 : pyLookup k m1 = none := by rw [hm1]; exact hnone
          exact (ih m1 hnodr).2.2 v hv hn1 m' hm'

/-- C4 (confirmed): for dicts with unique keys (the Python dict invariant),
the merge loop passes keys unique to either side through unchanged; for a
key present in both sides it fails when the two values have different
types, concatenates string values (left then right), merges dict values
recursively through `merge_metadata_dict` itself, and fails on any other
same-typed shared value; and on two truthy dicts `merge_metadata_dict` is
exactly this merge loop. -/
theorem c4_merge_rule (l r : PyDict) (k : String)
    (_hl : (l.map Prod.fst).Nodup) (hr : (r.map Prod.fst).Nodup) :
    (pyLookup k r = none → ∀ m', mergeInto l r = .ok m' → pyLookup k m' = pyLookup k l)
    ∧ (pyLookup k l = none → ∀ v, pyLookup k r = some v →
        ∀ m', mergeInto l r = .ok m' → pyLookup k m' = some v)
    ∧ (∀ v w, pyLookup k l = some w → pyLookup k r = some v → typeTag w ≠ typeTag v →
        ∃ e, mergeInto l r = .error e)
    ∧ (∀ a b, pyLookup k l = some (.vstr a) → pyLookup k r = some (.vstr b) →
        ∀ m', mergeInto l r = .ok m' → pyLookup k m' = some (.vstr (a ++ b)))
    ∧ (∀ da db, pyLookup k l = some (.vdict da) → pyLookup k r = some (.vdict db) →
        ∀ m', mergeInto l r = .ok m' →
          ∃ res, merge_metadata_dict (some da) (some db) = .ok res
            ∧ pyLookup k m' = some (optToVal res))
    ∧ (∀ v w, pyLookup k l = some w → pyLookup k r = some v → typeTag w = typeTag v →
        typeTag v ≠ 3 → typeTag v ≠ 5 → ∃ e, mergeInto l r = .error e)
    ∧ (l ≠ [] → r ≠ [] →
        merge_metadata_dict (some l) (some r) = (mergeInto l r).map some) := by
  have master := mergeInto_at_key k r l hr
  refine ⟨master.1, ?_, ?_, ?_, ?_, ?_, ?_⟩
  · intro hnone v hv
    exact master.2.2 v hv hnone
  · intro v w hw hv hne
    exact (master.2.1 v w hv hw).1 hne
  · intro a b hw hv m' hm'
    exact (master.2.1 (.vstr b) (.vstr a) hv hw).2.1 (.vstr (a ++ b))
      (mergeShared_str k a b) m' hm'
  · intro da db hw hv m' hm'
    have hms := mergeShared_dict k da db
    cases hmd : merge_metadata_dict (some da) (some db) with
    | error e0 =>
      exfalso
      have hs : mergeShared k (.vdict da) (.vdict db) = .error e0 := by
        rw [hms, hmd]
        rfl
      obtain ⟨e, he⟩ := (master.2.1 (.vdict db) (.vdict da) hv hw).2.2 e0 hs
      rw [he] at hm'
      cases hm'
    | ok res =>
      refine ⟨res, rfl, ?_⟩
      have hs : mergeShared k (.vdict da) (.vdict db) = .ok (optToVal res) := by
        rw [hms, hmd]
        rfl
      exact (master.2.1 (.vdict db) (.vdict da) hv hw).2.1 (optToVal res) hs m' hm'
  · intro v w hw hv ht h3 h5
    exact (master.2.1 v w hv hw).2.2 (unmergeableMsg k)
      (mergeShared_other k w v ht h3 h5)
  · intro hl0 hr0
    unfold merge_metadata_dict
    have hle : l.isEmpty = false := by simpa using hl0
    have hre : r.isEmpty = false := by simpa using hr0
    simp only [hle, hre, Bool.and_self, Bool.false_and, if_false]
    cases hab : mergeInto l r <;> simp [hab, Except.map]

theorem c4_witness :
    (([("a", Val.vstr "x")] : PyDict).map Prod.fst).Nodup
    ∧ pyLookup "a" [("a", Val.vstr "xy")] = some (Val.vstr "xy") := by
  have hrun : mergeInto [("a", Val.vstr "x")] [("a", Val.vstr "y")]
      = .ok [("a", Val.vstr "xy")] := by
    simp [mergeInto, pyLookup, pyUpdate, typeTag, mergeShared]
  refine ⟨by simp, ?_⟩
  exact (c4_merge_rule [("a", Val.vstr "x")] [("a", Val.vstr "y")] "a"
    (by simp) (by simp)).2.2.2.1 "x" "y" rfl rfl [("a", Val.vstr "xy")] hrun

/-- C10 (confirmed): when both arguments of `merge_metadata_dict` are
falsy (`None` or the empty dict) the result is `None`, not an empty dict;
when exactly one argument is falsy, the other argument is returned
unchanged. -/
theorem c10_falsy_behavior (l r : Option PyDict) :
    (pyTruthy l = false → pyTruthy r = false → merge_metadata_dict l r = .ok none)
    ∧ (pyTruthy l = false → pyTruthy r = true → merge_metadata_dict l r = .ok r)
    ∧ (pyTruthy l = true → pyTruthy r = false → merge_metadata_dict l r = .ok l) := by
  refine ⟨?_, ?_, ?_⟩
  · intro h1 h2
    cases l with
    | none =>
      cases r with
      | none => rfl
      | some rm =>
        have hre : rm.isEmpty = true := by simpa [pyTruthy] using h2
        simp [merge_metadata_dict, hre]
    | some lm =>
      have hle : lm.isEmpty = true := by simpa [pyTruthy] using h1
      cases r with
      | none => simp [merge_metadata_dict, hle]
      | some rm =>
        have hre : rm.isEmpty = true := by simpa [pyTruthy] using h2
        simp [merge_metadata_dict, hle, hre]
  · intro h1 h2
    cases r with
    | none => simp [pyTruthy] at h2
    | some rm =>
      have hre : rm.isEmpty = false := by simpa [pyTruthy] using h2
      cases l with
      | none => simp [merge_metadata_dict, hre]
      | some lm =>
        have hle : lm.isEmpty = true := by simpa [pyTruthy] using h1
        simp [merge_metadata_dict, hle, hre]
  · intro h1 h2
    cases l with
    | none => simp [pyTruthy] at h1
    | some lm =>
      have hle : lm.isEmpty = false := by simpa [pyTruthy] using h1
      cases r with
      | none => simp [merge_metadata_dict, hle]
      | some rm =>
        have hre : rm.isEmpty = true := by simpa [pyTruthy] using h2
        simp [merge_metadata_dict, hle, hre]

theorem c10_witness :
    merge_metadata_dict none none = .ok none
    ∧ merge_metadata_dict (some []) (some [("a", Val.vint 1)])
        = .ok (some [("a", Val.vint 1)])
    ∧ merge_metadata_dict (some [("a", Val.vint 1)]) none
        = .ok (some [("a", Val.vint 1)]) :=
  ⟨(c10_falsy_behavior none none).1 rfl rfl,
    (c10_falsy_behavior (some []) (some [("a", Val.vint 1)])).2.1 rfl rfl,
    (c10_falsy_behavior (some [("a", Val.vint 1)]) none).2.2 rfl rfl⟩
